import Mathlib

/-!
Shallow embedding of the `valutatrade_hub` rate-cache and trade-settlement
core, with proofs about it.

This file embeds, in Lean 4, the Python modules
`core/models.py`, `core/currencies.py`, `core/usecases.py`,
`parser_service/updater.py` and `parser_service/storage.py` of the
repository, and proves or refutes the specification claims about them.

Modelling conventions:
* Python `float` values are embedded as `ℚ` (exact rationals); the spec's
  rate invariants are about positive rates, and every claim here concerns
  exact code paths, not rounding.  Python's `1/x` raises
  `ZeroDivisionError` at `x = 0`; in `ℚ` the embedding has `1/0 = 0`, and
  every theorem touching a division carries a `≠ 0` hypothesis.
* Timestamps (`datetime` values, stored in JSON as ISO strings) are
  embedded as `Nat` (seconds); `datetime.fromisoformat`/`isoformat`
  round-trip is modelled as the identity.
* Python exceptions are values of the `PyErr` type below.  Messages are
  abbreviated, the constructor identifies the Python exception class.
* Python `dict`s are embedded as insertion-ordered association lists with
  last-write-wins assignment (`aset`), matching CPython semantics.
* The mutable JSON files behind `db_manager` (`portfolios`, `rates`,
  `exchange_rates`) are one explicit `Db` record threaded through the
  embedded operations.
-/

namespace VTHub

/-- Python exceptions raised by the embedded code, by exception class.
`typeError`, `attributeError` and `nameError` model the interpreter-level
failures the source can raise (mismatched keyword argument, missing
method, unimported name). -/
inductive PyErr where
  | valueError (msg : String)
  | typeError (msg : String)
  | attributeError (msg : String)
  | nameError (msg : String)
  | currencyNotFound (code : String)
  | rateNotFound (code : String)
  | apiRequestError (reason : String)
  | permissionError (msg : String)
  deriving Repr, DecidableEq

deriving instance DecidableEq for Except

/-- Association-list lookup with string keys (Python `dict.get`). -/
def alookup {α : Type} (k : String) : List (String × α) → Option α
  | [] => none
  | (k', v) :: rest => if k' = k then some v else alookup k rest

/-- Association-list assignment (Python `d[k] = v`): replaces in place if
the key is present, appends otherwise, preserving insertion order. -/
def aset {α : Type} (l : List (String × α)) (k : String) (v : α) :
    List (String × α) :=
  if (alookup k l).isSome then
    l.map (fun p => if p.1 = k then (k, v) else p)
  else
    l ++ [(k, v)]

/-- Python `d.update(other)` (last write wins, insertion order kept). -/
def aupdate {α : Type} (d other : List (String × α)) : List (String × α) :=
  other.foldl (fun acc p => aset acc p.1 p.2) d

/-- Python `str.upper()` on ASCII currency codes, written over the
character list so that it reduces in the kernel. -/
def upperStr (s : String) : String := String.mk (s.toList.map Char.toUpper)

/-- Python `str.lower()`, same convention as `upperStr`. -/
def lowerStr (s : String) : String := String.mk (s.toList.map Char.toLower)

/-- Python `s.split('_')` on the character list: splits at every
underscore (no limit), keeping empty segments, like `str.split` with an
explicit separator. -/
def splitChars : List Char → List (List Char)
  | [] => [[]]
  | c :: rest =>
    match splitChars rest with
    | [] => if c = '_' then [[], [c]] else [[c]]
    | g :: gs => if c = '_' then [] :: g :: gs else (c :: g) :: gs

/-- Python `pair.split('_')`. -/
def splitPair (s : String) : List String := (splitChars s.toList).map String.mk

/-- Modelled from the spec: `is_valid_currency_code` is imported by
`core/currencies.py` from `core/utils.py` but is absent from the source
tree; the spec gives its check as the format `^[A-Z]{2,5}$`. -/
def is_valid_currency_code (code : String) : Bool :=
  decide (2 ≤ code.length) && decide (code.length ≤ 5)
    && code.toList.all (fun c => decide ('A' ≤ c) && decide (c ≤ 'Z'))

/-- The static currency registry of `core/currencies.py`
(`_currency_registry` keys). -/
def currencyRegistry : List String := ["USD", "EUR", "RUB", "BTC", "ETH"]

/-- `core/currencies.py::get_currency`: validates the raw code with
`is_valid_currency_code`, then looks up `code.upper()` in the registry;
raises `CurrencyNotFoundError` on either failure.  The embedding returns
the registered (canonical) code, which is all the callers use
(`currency.code`). -/
def get_currency (code : String) : Except PyErr String :=
  if ¬ is_valid_currency_code code then
    .error (.currencyNotFound code)
  else if currencyRegistry.contains (upperStr code) then
    .ok (upperStr code)
  else
    .error (.currencyNotFound code)

/-- `core/models.py::Wallet`: one currency, one balance. -/
structure Wallet where
  currency_code : String
  balance : ℚ
  deriving Repr, DecidableEq

namespace Wallet

/-- `Wallet.__init__`: stores the balance directly in `self._balance`,
bypassing the validating `balance` setter — no check at all. -/
def init (currency_code : String) (balance : ℚ) : Wallet :=
  ⟨currency_code, balance⟩

/-- The `balance` property setter: rejects a negative value. -/
def setBalance (w : Wallet) (value : ℚ) : Except PyErr Wallet :=
  if value < 0 then
    .error (.valueError "Баланс не может быть отрицательным и должен быть числом.")
  else
    .ok { w with balance := value }

/-- `Wallet.deposit`: rejects a non-positive amount, then assigns
`balance + amount` through the setter. -/
def deposit (w : Wallet) (amount : ℚ) : Except PyErr Wallet :=
  if amount ≤ 0 then
    .error (.valueError "Сумма пополнения должна быть положительным числом.")
  else
    w.setBalance (w.balance + amount)

/-- `Wallet.withdraw`: rejects a non-positive amount, rejects
`amount > balance` with a bare `ValueError` (note: not
`InsufficientFundsError`, and carrying no available/required figures),
then assigns `balance - amount` through the setter. -/
def withdraw (w : Wallet) (amount : ℚ) : Except PyErr Wallet :=
  if amount ≤ 0 then
    .error (.valueError "Сумма снятия должна быть положительным числом.")
  else if amount > w.balance then
    .error (.valueError "Недостаточно средств.")
  else
    w.setBalance (w.balance - amount)

end Wallet

/-- `core/models.py::Portfolio`: all wallets of one user. -/
structure Portfolio where
  user_id : Nat
  wallets : List (String × Wallet)
  deriving Repr, DecidableEq

namespace Portfolio

/-- `Portfolio.get_wallet`: `ValueError` when no wallet exists for the
code. -/
def get_wallet (p : Portfolio) (currency_code : String) :
    Except PyErr Wallet :=
  match alookup currency_code p.wallets with
  | none => .error (.valueError ("Кошелек для " ++ currency_code ++ " не найден."))
  | some w => .ok w

/-- Functional stand-in for the in-place mutation of a wallet object held
inside the portfolio dict. -/
def setWallet (p : Portfolio) (code : String) (w : Wallet) : Portfolio :=
  { p with wallets := aset p.wallets code w }

end Portfolio

/-- One pair entry of the persisted `rates` snapshot
(`pairs[pair] = {rate, updated_at, source}`). -/
structure RateInfo where
  rate : ℚ
  updated_at : Nat
  source : String
  deriving Repr, DecidableEq

/-- The persisted `rates` snapshot: `{pairs, last_refresh}`;
`last_refresh` is `none` when the key is absent or empty. -/
structure RatesSnapshot where
  pairs : List (String × RateInfo)
  lastRefresh : Option Nat
  deriving Repr, DecidableEq

/-- One record of the append-only `exchange_rates` history file
(`storage.py::save_rate_to_history`); `id` is derived from the fields. -/
structure HistoryRecord where
  from_currency : String
  to_currency : String
  rate : ℚ
  timestamp : Nat
  source : String
  deriving Repr, DecidableEq

/-- The JSON files behind `db_manager`, as one explicit state record:
`portfolios` maps `user_id` to serialized wallets
(`{code: {balance}}`), `rates` is the snapshot, `history` the
`exchange_rates` file. -/
structure Db where
  portfolios : List (Nat × List (String × ℚ))
  rates : RatesSnapshot
  history : List HistoryRecord
  deriving Repr, DecidableEq

/-- Lookup of a user's stored portfolio entry (`user_id` keyed). -/
def plookup (uid : Nat) : List (Nat × List (String × ℚ)) →
    Option (List (String × ℚ))
  | [] => none
  | (k, v) :: rest => if k = uid then some v else plookup uid rest

/-- Assignment into the `portfolios` table (`user_id` keyed). -/
def pset (l : List (Nat × List (String × ℚ))) (uid : Nat)
    (v : List (String × ℚ)) : List (Nat × List (String × ℚ)) :=
  if (plookup uid l).isSome then
    l.map (fun p => if p.1 = uid then (uid, v) else p)
  else
    l ++ [(uid, v)]

/-- The wallet-reconstruction loop of `usecases.py::_load_portfolio`.
For each stored `(code, data)`: `get_currency(code)` is called first; a
`CurrencyNotFoundError` is caught and the entry skipped; when it
succeeds, the source executes `Wallet(currency=..., balance=...)` — but
`Wallet.__init__` has no parameter named `currency` (its signature is
`(currency_code, balance)`), so Python raises a `TypeError`, which
nothing catches.  A successful run therefore yields no wallets. -/
def loadWallets : List (String × ℚ) → Except PyErr (List (String × Wallet))
  | [] => .ok []
  | (code, _data) :: rest =>
    match get_currency code with
    | .error _ => loadWallets rest
    | .ok _ =>
        .error (.typeError "Wallet.__init__ got an unexpected keyword argument currency")

/-- `usecases.py::_load_portfolio`: finds the user's stored portfolio
(absent entry gives an empty wallet dict) and rebuilds the wallets via
`loadWallets`. -/
def loadPortfolio (uid : Nat) (db : Db) : Except PyErr Portfolio :=
  match plookup uid db.portfolios with
  | none => .ok ⟨uid, []⟩
  | some stored =>
    match loadWallets stored with
    | .error e => .error e
    | .ok ws => .ok ⟨uid, ws⟩

/-- `usecases.py::_save_portfolio`: serializes each wallet to its balance
and replaces (or appends) the user's entry in the `portfolios` file. -/
def savePortfolio (p : Portfolio) (db : Db) : Db :=
  { db with
    portfolios :=
      pset db.portfolios p.user_id (p.wallets.map (fun q => (q.1, q.2.balance))) }

/-- `settings.get("DEFAULT_BASE_CURRENCY")` in `infra/settings.py`. -/
def DEFAULT_BASE_CURRENCY : String := "USD"

/-- `settings.get("RATES_TTL_SECONDS")` in `infra/settings.py`. -/
def RATES_TTL_SECONDS : Nat := 300

/-- `usecases.py::buy`, with the session's current user and the database
state made explicit.  The result pairs the outcome (`Except` for a raised
exception, message text abbreviated) with the database state after the
call; every exception path leaves the state untouched because the only
write, `_save_portfolio`, is last. -/
def buy (currency : String) (amount : ℚ) (sessionUser : Option Nat)
    (db : Db) : Except PyErr String × Db :=
  if amount ≤ 0 then
    (.error (.valueError "amount должен быть положительным числом."), db)
  else
    match sessionUser with
    | none => (.error (.permissionError "Сначала выполните login."), db)
    | some uid =>
      match get_currency currency with
      | .error e => (.error e, db)
      | .ok code =>
        let base := DEFAULT_BASE_CURRENCY
        match loadPortfolio uid db with
        | .error e => (.error e, db)
        | .ok portfolio =>
          if code = base then
            -- buying the base currency: plain deposit; when the base
            -- wallet is absent the source calls `portfolio.add_wallet`,
            -- a method `Portfolio` does not define → `AttributeError`.
            match alookup base portfolio.wallets with
            | some w =>
              match w.deposit amount with
              | .error e => (.error e, db)
              | .ok w' =>
                  (.ok "Пополнено", savePortfolio (portfolio.setWallet base w') db)
            | none =>
                (.error (.attributeError "Portfolio object has no attribute add_wallet"), db)
          else
            let pair_key := code ++ "_" ++ base
            match alookup pair_key db.rates.pairs with
            | none => (.error (.rateNotFound pair_key), db)
            | some rate_info =>
              let cost := amount * rate_info.rate
              match alookup base portfolio.wallets with
              | none =>
                  -- the source's `except ValueError:` handler executes
                  -- `raise InsufficientFundsError(...)`, but that name is
                  -- never imported in `usecases.py` → `NameError`.
                  (.error (.nameError "name InsufficientFundsError is not defined"), db)
              | some base_wallet =>
                match base_wallet.withdraw cost with
                | .error e => (.error e, db)
                | .ok bw' =>
                  let p1 := portfolio.setWallet base bw'
                  match alookup code p1.wallets with
                  | some tw =>
                    match tw.deposit amount with
                    | .error e => (.error e, db)
                    | .ok tw' =>
                        (.ok "Покупка выполнена",
                         savePortfolio (p1.setWallet code tw') db)
                  | none =>
                      (.error (.attributeError "Portfolio object has no attribute add_wallet"), db)

/-- `usecases.py::sell`: validates the amount and session, loads the
portfolio, requires an existing wallet for the raw `currency` string
(no `get_currency` validation in `sell`), withdraws, persists.  It never
touches any other wallet and performs no rate lookup. -/
def sell (currency : String) (amount : ℚ) (sessionUser : Option Nat)
    (db : Db) : Except PyErr String × Db :=
  if amount ≤ 0 then
    (.error (.valueError "amount должен быть положительным числом."), db)
  else
    match sessionUser with
    | none => (.error (.permissionError "Сначала выполните login."), db)
    | some uid =>
      match loadPortfolio uid db with
      | .error e => (.error e, db)
      | .ok portfolio =>
        match portfolio.get_wallet currency with
        | .error e => (.error e, db)
        | .ok wallet =>
          match wallet.withdraw amount with
          | .error e => (.error e, db)
          | .ok w' =>
              (.ok "Продажа выполнена",
               savePortfolio (portfolio.setWallet currency w') db)

/-- The `ApiRequestError` reason used by the staleness gate of
`usecases.py::get_rate`. -/
def staleReason : String := "Кэш курсов устарел. Выполните update-rates."

/-- `usecases.py::get_rate`, up to the final string formatting: returns
the forward rate, the derived reverse rate and the `updated_at` stamp of
the entry used.  Validates both codes, applies the TTL gate
(`last_refresh` absent, or `last_refresh + TTL < now`), then looks up the
direct pair and falls back to the inverted reverse pair.  Python's
`1/rate` at `rate = 0` (`ZeroDivisionError`) is outside the embedding:
theorems carry a `rate ≠ 0` hypothesis where a division matters. -/
def get_rate (from_currency to_currency : String) (db : Db) (now : Nat) :
    Except PyErr (ℚ × ℚ × Nat) :=
  match get_currency from_currency with
  | .error e => .error e
  | .ok _ =>
    match get_currency to_currency with
    | .error e => .error e
    | .ok _ =>
      match db.rates.lastRefresh with
      | none => .error (.apiRequestError staleReason)
      | some lr =>
        if lr + RATES_TTL_SECONDS < now then
          .error (.apiRequestError staleReason)
        else
          let pair := from_currency ++ "_" ++ to_currency
          let rates := db.rates.pairs
          let info? :=
            match alookup pair rates with
            | some i => some i
            | none => alookup (to_currency ++ "_" ++ from_currency) rates
          match info? with
          | none => .error (.rateNotFound pair)
          | some rate_info =>
            let rate :=
              if (alookup pair rates).isSome then rate_info.rate
              else 1 / rate_info.rate
            .ok (rate, 1 / rate, rate_info.updated_at)

/-! The parser service: `updater.py` and `storage.py`. -/

/-- `updater.py::UpdateResult`. -/
structure UpdateResult where
  source_name : String
  rates_count : Nat
  duration_ms : ℚ
  deriving Repr, DecidableEq

/-- One registered adapter of `RatesUpdater`, with the outcome of its
(external, opaque) `fetch_rates()` call made explicit: `.ok rates` for a
returned mapping, `.error reason` for a raised
`ApiRequestError(reason)`.  `duration_ms` is the measured wall-clock
around the fetch. -/
structure Client where
  name : String
  fetch : Except String (List (String × ℚ))
  duration_ms : ℚ

/-- `storage.py::save_rate_to_history`: appends one record to the
`exchange_rates` file. -/
def save_rate_to_history (from_currency to_currency : String) (rate : ℚ)
    (source : String) (now : Nat) (db : Db) : Db :=
  { db with
    history := db.history ++ [⟨from_currency, to_currency, rate, now, source⟩] }

/-- `storage.py::update_rates_snapshot`: writes every fetched pair into
the snapshot (keeping pairs not fetched this run), with
`updated_at = now` and provenance `sources.get(pair, "Unknown")`, and
sets `last_refresh = now`. -/
def update_rates_snapshot (rates_data : List (String × ℚ))
    (sources : List (String × String)) (now : Nat) (db : Db) : Db :=
  { db with
    rates :=
      { pairs :=
          rates_data.foldl
            (fun acc p =>
              aset acc p.1 ⟨p.2, now, (alookup p.1 sources).getD "Unknown"⟩)
            db.rates.pairs,
        lastRefresh := some now } }

/-- The per-adapter loop of `updater.py::run_update`: accumulates the
merged rates (`all_rates.update(rates)`, last write wins), per-pair
provenance (`all_sources[pair] = name`), the successful `UpdateResult`s
and the error strings for adapters whose fetch raised
`ApiRequestError`. -/
def runClients : List Client → List (String × ℚ) → List (String × String) →
    List UpdateResult → List String →
    List (String × ℚ) × List (String × String) × List UpdateResult × List String
  | [], allRates, allSources, results, errors =>
      (allRates, allSources, results, errors)
  | c :: rest, allRates, allSources, results, errors =>
    match c.fetch with
    | .ok rates =>
        runClients rest (aupdate allRates rates)
          (rates.foldl (fun acc p => aset acc p.1 c.name) allSources)
          (results ++ [⟨c.name, rates.length, c.duration_ms⟩])
          errors
    | .error reason =>
        runClients rest allRates allSources results
          (errors ++ ["Failed to fetch from " ++ c.name ++ ": " ++ reason])

/-- The history-writing loop of `run_update`: for each merged pair,
`pair.split('_')` is unpacked into exactly two parts (a `ValueError` if
not) and one history record is appended; `all_sources[pair]` raises
`KeyError` if absent (it never is for pairs of `all_rates`). -/
def writeHistory : List (String × ℚ) → List (String × String) → Nat → Db →
    Except PyErr Db
  | [], _, _, db => .ok db
  | (pair, rate) :: rest, sources, now, db =>
    match splitPair pair with
    | [f, t] =>
      match alookup pair sources with
      | some src => writeHistory rest sources now
          (save_rate_to_history f t rate src now db)
      | none => .error (.nameError "KeyError")
    | _ => .error (.valueError "cannot unpack pair key")

/-- `updater.py::RatesUpdater.run_update`: optional source filter (an
unknown name raises `ValueError`), per-adapter fetch loop with
`ApiRequestError` caught and recorded per adapter, then — only when at
least one pair was merged — the history append and the snapshot
overwrite. -/
def run_update (clients : List Client) (source : Option String) (now : Nat)
    (db : Db) : Except PyErr ((List UpdateResult × List String) × Db) :=
  match
    (match source with
     | none => Except.ok clients
     | some s =>
       match clients.find? (fun (c : Client) => c.name == lowerStr s) with
       | none => Except.error (PyErr.valueError ("Неизвестный источник: " ++ lowerStr s))
       | some c => Except.ok [c])
  with
  | .error e => .error e
  | .ok clientsToRun =>
    match runClients clientsToRun [] [] [] [] with
    | (allRates, allSources, results, errors) =>
      if allRates.isEmpty then .ok ((results, errors), db)
      else
        match writeHistory allRates allSources now db with
        | .error e => .error e
        | .ok db1 =>
            .ok ((results, errors), update_rates_snapshot allRates allSources now db1)

/-! Concrete database states used by the claim scenarios. -/

/-- The spec scenario for `buy`: user 1 holds exactly `USD: 1000`, the
snapshot has `BTC_USD` at rate 60000, fresh at time 0. -/
def c3Db : Db :=
  { portfolios := [(1, [("USD", 1000)])],
    rates := { pairs := [("BTC_USD", ⟨60000, 0, "coingecko"⟩)], lastRefresh := some 0 },
    history := [] }

/-- A state with an empty stored portfolio for user 1 and a fresh cached
`BTC_USD` rate. -/
def c4Db : Db :=
  { portfolios := [],
    rates := { pairs := [("BTC_USD", ⟨60000, 0, "coingecko"⟩)], lastRefresh := some 0 },
    history := [] }

/-- A fresh snapshot holding only the pair `BTC_USD` (no `USD_USD`). -/
def c7Db : Db :=
  { portfolios := [],
    rates := { pairs := [("BTC_USD", ⟨60000, 0, "coingecko"⟩)], lastRefresh := some 0 },
    history := [] }

/-- A state where user 1 holds funded `BTC` and `USD` wallets. -/
def c8Db : Db :=
  { portfolios := [(1, [("BTC", 1), ("USD", 400)])],
    rates := { pairs := [("BTC_USD", ⟨60000, 0, "coingecko"⟩)], lastRefresh := some 0 },
    history := [] }

/-! Claim theorems. -/

/-- C3: the spec's buy scenario (`{USD: 1000}`, `base=USD`,
`buy(BTC, 0.01)` at cached rate `BTC_USD = 60000`) does not debit 600 and
credit 0.01: the call crashes with a `TypeError` inside
`_load_portfolio` (the `Wallet(currency=...)` keyword does not match
`Wallet.__init__(currency_code, ...)`), before any wallet is touched, and
the persisted state is returned unchanged. -/
theorem buy_spec_scenario_crashes :
    buy "BTC" (1/100) (some 1) c3Db =
      (.error (.typeError "Wallet.__init__ got an unexpected keyword argument currency"), c3Db) := by
  have ha : ¬ ((1:ℚ)/100 ≤ 0) := by norm_num
  have hg : get_currency "BTC" = .ok "BTC" := by decide
  have hlp : loadPortfolio 1 c3Db =
      .error (.typeError "Wallet.__init__ got an unexpected keyword argument currency") := by decide
  simp only [buy, if_neg ha, hg, hlp]

/-- C4: on the funds-protection paths the code does not raise an
`InsufficientFunds` error carrying the available and required amounts:
`Wallet.withdraw` beyond the balance raises a bare `ValueError` with no
amounts, and `buy` with an absent base wallet raises a `NameError`
(`InsufficientFundsError` is referenced but never imported in
`usecases.py`); the persisted state is returned unchanged. -/
theorem insufficient_funds_paths_raise_wrong_errors :
    Wallet.withdraw ⟨"USD", 100⟩ 200 = .error (.valueError "Недостаточно средств.")
    ∧ buy "BTC" 1 (some 1) c4Db =
        (.error (.nameError "name InsufficientFundsError is not defined"), c4Db) := by
  constructor
  · have h1 : ¬ ((200:ℚ) ≤ 0) := by norm_num
    have h2 : (200:ℚ) > 100 := by norm_num
    simp only [Wallet.withdraw, if_neg h1, if_pos h2]
  · have ha : ¬ ((1:ℚ) ≤ 0) := by norm_num
    have hg : get_currency "BTC" = .ok "BTC" := by decide
    have hlp : loadPortfolio 1 c4Db = .ok ⟨1, []⟩ := by decide
    have hb : ("BTC" : String) ≠ DEFAULT_BASE_CURRENCY := by decide
    have hrate : alookup ("BTC" ++ "_" ++ DEFAULT_BASE_CURRENCY) c4Db.rates.pairs
        = some ⟨60000, 0, "coingecko"⟩ := by decide
    have hwal : alookup DEFAULT_BASE_CURRENCY (Portfolio.mk 1 []).wallets = none := by decide
    simp only [buy, if_neg ha, hg, hlp, if_neg hb, hrate, hwal]

/-- C8: the sell path cannot debit an existing funded wallet: with user 1
holding `BTC: 1` and `USD: 400`, `sell(BTC, 0.5)` crashes with the same
`_load_portfolio` `TypeError` before any balance changes, and the
persisted state is returned unchanged — no wallet is debited and the
base-currency wallet is not credited. -/
theorem sell_funded_wallet_crashes :
    sell "BTC" (1/2) (some 1) c8Db =
      (.error (.typeError "Wallet.__init__ got an unexpected keyword argument currency"), c8Db) := by
  have ha : ¬ ((1:ℚ)/2 ≤ 0) := by norm_num
  have hlp : loadPortfolio 1 c8Db =
      .error (.typeError "Wallet.__init__ got an unexpected keyword argument currency") := by decide
  simp only [sell, if_neg ha, hlp]

/-- C7 counterexample: with a fresh snapshot caching only `BTC_USD`, the
query `get_rate("USD", "USD")` does not return 1.0 — there is no
same-currency shortcut, the normal lookup runs and fails with
`RateNotFoundError("USD_USD")`. -/
theorem get_rate_same_currency_fails_concrete :
    get_rate "USD" "USD" c7Db 10 = .error (.rateNotFound "USD_USD") := by decide

/-- C7 amended: `get_rate` treats a same-currency query like any other
pair: it passes the staleness gate and then requires a cached `X_X`
entry; when the snapshot is fresh and no `X_X` pair is stored it fails
with `RateNotFoundError` for every registered currency `X`. -/
theorem get_rate_same_currency_needs_cached_pair
    (X cX : String) (ports : List (Nat × List (String × ℚ)))
    (hist : List HistoryRecord) (pairs : List (String × RateInfo))
    (t0 now : Nat)
    (hX : get_currency X = .ok cX)
    (hfresh : ¬ (t0 + RATES_TTL_SECONDS < now))
    (hmiss : alookup (X ++ "_" ++ X) pairs = none) :
    get_rate X X ⟨ports, ⟨pairs, some t0⟩, hist⟩ now
      = .error (.rateNotFound (X ++ "_" ++ X)) := by
  simp only [get_rate, hX, if_neg hfresh, hmiss]

/-- Witness for the C7 amended theorem at `X = "USD"`, a fresh snapshot
caching only `BTC_USD`, query time 100. -/
theorem get_rate_same_currency_needs_cached_pair_witness :
    get_rate "USD" "USD" ⟨[], ⟨[("BTC_USD", ⟨60000, 0, "coingecko"⟩)], some 0⟩, []⟩ 100
      = .error (.rateNotFound ("USD" ++ "_" ++ "USD")) :=
  get_rate_same_currency_needs_cached_pair "USD" "USD" [] []
    [("BTC_USD", ⟨60000, 0, "coingecko"⟩)] 0 100 (by decide) (by decide) (by decide)

/-- C9 counterexample: `Wallet.__init__` stores the given balance without
validation, so a freshly constructed wallet can violate the
non-negativity invariant. -/
theorem wallet_init_accepts_negative_balance :
    (Wallet.init "USD" (-5)).balance = -5 ∧ ¬ (0 ≤ (Wallet.init "USD" (-5)).balance) := by
  constructor
  · rfl
  · norm_num [Wallet.init]

/-- C9 amended: `deposit` and `withdraw` preserve non-negativity — every
successful mutation yields a non-negative balance (the `balance` setter
rejects negative assignments), a non-positive deposit amount is rejected,
and an overdraft is rejected — but only for wallets mutated through these
methods; construction itself is unvalidated (see the counterexample). -/
theorem wallet_mutations_preserve_nonnegativity (w : Wallet) (a : ℚ) :
    (∀ w', w.deposit a = .ok w' → 0 ≤ w'.balance)
    ∧ (∀ w', w.withdraw a = .ok w' → 0 ≤ w'.balance)
    ∧ (a ≤ 0 → w.deposit a = .error (.valueError "Сумма пополнения должна быть положительным числом."))
    ∧ (0 < a → w.balance < a → w.withdraw a = .error (.valueError "Недостаточно средств.")) := by
  refine ⟨?_, ?_, ?_, ?_⟩
  · intro w' hw
    unfold Wallet.deposit Wallet.setBalance at hw
    split at hw
    · cases hw
    · split at hw
      · cases hw
      · cases hw
        simpa using le_of_not_lt (by assumption)
  · intro w' hw
    unfold Wallet.withdraw Wallet.setBalance at hw
    split at hw
    · cases hw
    · split at hw
      · cases hw
      · split at hw
        · cases hw
        · cases hw
          simpa using le_of_not_lt (by assumption)
  · intro hle
    unfold Wallet.deposit
    simp [hle]
  · intro hpos hover
    unfold Wallet.withdraw
    rw [if_neg (by linarith), if_pos (by exact hover)]

/-- Witness for the C9 amended theorem: a wallet holding 5 rejects a
withdrawal of 7 with the bare `ValueError`. -/
theorem wallet_mutations_preserve_nonnegativity_witness :
    (0:ℚ) ≤ 5
    ∧ Wallet.withdraw ⟨"USD", 5⟩ 7 = .error (.valueError "Недостаточно средств.") :=
  ⟨by norm_num,
   (wallet_mutations_preserve_nonnegativity ⟨"USD", 5⟩ 7).2.2.2
     (by norm_num) (by norm_num)⟩

/-- C5: for valid currencies, `get_rate` fails with the stale-cache
`ApiRequestError` exactly when `last_refresh` is absent or
`last_refresh + TTL < now` — for every snapshot, including ones caching
the queried pair — and, conversely, a fresh cache never produces the
stale error. -/
theorem get_rate_stale_iff (f t cf ct : String)
    (ports : List (Nat × List (String × ℚ))) (hist : List HistoryRecord)
    (pairs : List (String × RateInfo)) (lr : Option Nat) (now : Nat)
    (hf : get_currency f = .ok cf) (ht : get_currency t = .ok ct) :
    get_rate f t ⟨ports, ⟨pairs, lr⟩, hist⟩ now
        = .error (.apiRequestError staleReason)
      ↔ lr = none ∨ ∃ t0, lr = some t0 ∧ t0 + RATES_TTL_SECONDS < now := by
  simp only [get_rate, hf, ht]
  cases lr with
  | none => simp
  | some t0 =>
    by_cases hlt : t0 + RATES_TTL_SECONDS < now
    · simp only [if_pos hlt, eq_self_iff_true, true_iff]
      exact Or.inr ⟨t0, rfl, hlt⟩
    · simp only [if_neg hlt]
      constructor
      · intro hres
        cases hmatch : (match alookup (f ++ "_" ++ t) pairs with
          | some i => some i
          | none => alookup (t ++ "_" ++ f) pairs) with
        | none => rw [hmatch] at hres; cases hres
        | some i => rw [hmatch] at hres; cases hres
      · rintro (h | ⟨t1, ht1, hlt1⟩)
        · cases h
        · cases ht1; exact absurd hlt1 hlt

/-- Witness for C5: the spec scenario — snapshot `BTC_USD: 60000`
refreshed at `T0 = 0`, TTL 300 — fails stale at `T0+301` and is served
(with the derived reverse rate) at `T0+100`. -/
theorem get_rate_stale_iff_witness :
    get_rate "USD" "BTC" ⟨[], ⟨[("BTC_USD", ⟨60000, 0, "coingecko"⟩)], some 0⟩, []⟩ 301
        = .error (.apiRequestError staleReason)
    ∧ get_rate "USD" "BTC" ⟨[], ⟨[("BTC_USD", ⟨60000, 0, "coingecko"⟩)], some 0⟩, []⟩ 100
        = .ok (1/60000, 60000, 0) := by
  constructor
  · exact (get_rate_stale_iff "USD" "BTC" "USD" "BTC" [] []
      [("BTC_USD", ⟨60000, 0, "coingecko"⟩)] (some 0) 301
      (by decide) (by decide)).mpr
      (Or.inr ⟨0, rfl, by norm_num [RATES_TTL_SECONDS]⟩)
  · have hg1 : get_currency "USD" = .ok "USD" := by decide
    have hg2 : get_currency "BTC" = .ok "BTC" := by decide
    have hfresh : ¬ ((0:Nat) + RATES_TTL_SECONDS < 100) := by
      norm_num [RATES_TTL_SECONDS]
    simp only [get_rate, hg1, hg2, if_neg hfresh]
    simp [alookup]

/-- C6: in a fresh snapshot storing `A_B` (and no reverse entry `B_A`,
which is how the updater writes pairs), the forward query returns the
stored rate, the reverse query returns the derived inverse `1/rate` of
the same stored entry, and their product is exactly 1. -/
theorem get_rate_reverse_is_derived_inverse (A B cA cB : String)
    (ports : List (Nat × List (String × ℚ))) (hist : List HistoryRecord)
    (pairs : List (String × RateInfo)) (t0 now : Nat) (info : RateInfo)
    (hA : get_currency A = .ok cA) (hB : get_currency B = .ok cB)
    (hfresh : ¬ (t0 + RATES_TTL_SECONDS < now))
    (hdir : alookup (A ++ "_" ++ B) pairs = some info)
    (hrev : alookup (B ++ "_" ++ A) pairs = none)
    (hr : info.rate ≠ 0) :
    get_rate A B ⟨ports, ⟨pairs, some t0⟩, hist⟩ now
        = .ok (info.rate, 1 / info.rate, info.updated_at)
    ∧ get_rate B A ⟨ports, ⟨pairs, some t0⟩, hist⟩ now
        = .ok (1 / info.rate, info.rate, info.updated_at)
    ∧ info.rate * (1 / info.rate) = 1 := by
  refine ⟨?_, ?_, mul_one_div_cancel hr⟩
  · simp only [get_rate, hA, hB, if_neg hfresh, hdir, Option.isSome_some, if_pos]
  · simp only [get_rate, hA, hB, if_neg hfresh, hrev, hdir, Option.isSome_none,
      Bool.false_eq_true, if_false, one_div_one_div]

/-- Witness for C6 at the cached pair `BTC_USD` with rate 60000 in a
fresh snapshot. -/
theorem get_rate_reverse_is_derived_inverse_witness :
    get_rate "BTC" "USD" ⟨[], ⟨[("BTC_USD", ⟨60000, 0, "coingecko"⟩)], some 0⟩, []⟩ 100
        = .ok ((60000:ℚ), 1 / 60000, 0)
    ∧ get_rate "USD" "BTC" ⟨[], ⟨[("BTC_USD", ⟨60000, 0, "coingecko"⟩)], some 0⟩, []⟩ 100
        = .ok (1 / 60000, (60000:ℚ), 0)
    ∧ (60000:ℚ) * (1 / 60000) = 1 :=
  get_rate_reverse_is_derived_inverse "BTC" "USD" "BTC" "USD" [] []
    [("BTC_USD", ⟨60000, 0, "coingecko"⟩)] 0 100 ⟨60000, 0, "coingecko"⟩
    (by decide) (by decide) (by norm_num [RATES_TTL_SECONDS]) (by decide) (by decide)
    (by norm_num)

/-! Shape lemmas about which exception classes each embedded function can
raise, used for the claims about `buy`. -/

lemma get_currency_error_is_notFound (c : String) (e : PyErr)
    (h : get_currency c = .error e) : ∃ s, e = .currencyNotFound s := by
  unfold get_currency at h
  split at h
  · exact ⟨c, by injection h with h'; exact h'.symm⟩
  · split at h
    · cases h
    · exact ⟨c, by injection h with h'; exact h'.symm⟩

lemma setBalance_error_is_valueError (w : Wallet) (v : ℚ) (e : PyErr)
    (h : w.setBalance v = .error e) : ∃ m, e = .valueError m := by
  unfold Wallet.setBalance at h
  split at h
  · exact ⟨_, by injection h with h'; exact h'.symm⟩
  · cases h

lemma deposit_error_is_valueError (w : Wallet) (a : ℚ) (e : PyErr)
    (h : w.deposit a = .error e) : ∃ m, e = .valueError m := by
  unfold Wallet.deposit at h
  split at h
  · exact ⟨_, by injection h with h'; exact h'.symm⟩
  · exact setBalance_error_is_valueError _ _ _ h

lemma withdraw_error_is_valueError (w : Wallet) (a : ℚ) (e : PyErr)
    (h : w.withdraw a = .error e) : ∃ m, e = .valueError m := by
  unfold Wallet.withdraw at h
  split at h
  · exact ⟨_, by injection h with h'; exact h'.symm⟩
  · split at h
    · exact ⟨_, by injection h with h'; exact h'.symm⟩
    · exact setBalance_error_is_valueError _ _ _ h

lemma loadWallets_error_is_typeError (l : List (String × ℚ)) (e : PyErr)
    (h : loadWallets l = .error e) : ∃ m, e = .typeError m := by
  induction l with
  | nil => cases h
  | cons p rest ih =>
    rw [loadWallets] at h
    split at h
    · exact ih h
    · exact ⟨_, by injection h with h'; exact h'.symm⟩

lemma loadPortfolio_error_is_typeError (u : Nat) (db : Db) (e : PyErr)
    (h : loadPortfolio u db = .error e) : ∃ m, e = .typeError m := by
  unfold loadPortfolio at h
  split at h
  · cases h
  · split at h
    · injection h with h'
      subst h'
      exact loadWallets_error_is_typeError _ _ (by assumption)
    · cases h

lemma loadPortfolio_congr (u : Nat) (db db' : Db)
    (hp : db.portfolios = db'.portfolios) :
    loadPortfolio u db = loadPortfolio u db' := by
  unfold loadPortfolio
  rw [hp]

lemma loadPortfolio_absent (u : Nat) (db : Db)
    (h : plookup u db.portfolios = none) : loadPortfolio u db = .ok ⟨u, []⟩ := by
  unfold loadPortfolio
  rw [h]

/-- `buy` reads only the `portfolios` table and the snapshot's `pairs`
map: states agreeing there produce the same outcome, whatever
`last_refresh` or the history hold. -/
lemma buy_outcome_congr (c : String) (a : ℚ) (su : Option Nat) (db db' : Db)
    (hp : db.portfolios = db'.portfolios) (hr : db.rates.pairs = db'.rates.pairs) :
    (buy c a su db).1 = (buy c a su db').1 := by
  unfold buy
  by_cases h1 : a ≤ 0
  · simp [h1]
  · simp only [if_neg h1]
    cases su with
    | none => rfl
    | some u =>
      cases hg : get_currency c with
      | error e => simp [hg]
      | ok code =>
        simp only [hg]
        rw [loadPortfolio_congr u db db' hp]
        cases hl : loadPortfolio u db' with
        | error e => simp [hl]
        | ok portfolio =>
          simp only [hl]
          by_cases hb : code = DEFAULT_BASE_CURRENCY
          · simp only [if_pos hb]
            cases halw : alookup DEFAULT_BASE_CURRENCY portfolio.wallets with
            | none => simp only [halw]
            | some w =>
              simp only [halw]
              cases hd : w.deposit a with
              | error e => simp only [hd]
              | ok w2 => simp only [hd]
          · simp only [if_neg hb]
            rw [hr]
            cases hrl : alookup (code ++ "_" ++ DEFAULT_BASE_CURRENCY) db'.rates.pairs with
            | none => simp only [hrl]
            | some rate_info =>
              simp only [hrl]
              cases hbw : alookup DEFAULT_BASE_CURRENCY portfolio.wallets with
              | none => simp only [hbw]
              | some bw =>
                simp only [hbw]
                cases hw : bw.withdraw (a * rate_info.rate) with
                | error e => simp only [hw]
                | ok bw2 =>
                  simp only [hw]
                  cases htw : alookup code (portfolio.setWallet DEFAULT_BASE_CURRENCY bw2).wallets with
                  | none => simp only [htw]
                  | some tw =>
                    simp only [htw]
                    cases hdp : tw.deposit a with
                    | error e => simp only [hdp]
                    | ok tw2 => simp only [hdp]

/-- `buy` can never raise the stale-cache `ApiRequestError`: no branch of
its body constructs one, and every propagated error is of another
exception class. -/
lemma buy_never_apiRequestError (c : String) (a : ℚ) (su : Option Nat)
    (db : Db) (r : String) :
    (buy c a su db).1 ≠ .error (.apiRequestError r) := by
  unfold buy
  by_cases h1 : a ≤ 0
  · simp [h1]
  · simp only [if_neg h1]
    cases su with
    | none => simp
    | some u =>
      cases hg : get_currency c with
      | error e =>
        obtain ⟨s, rfl⟩ := get_currency_error_is_notFound c e hg
        simp
      | ok code =>
        simp only [hg]
        cases hl : loadPortfolio u db with
        | error e =>
          obtain ⟨m, rfl⟩ := loadPortfolio_error_is_typeError u db e hl
          simp [hl]
        | ok portfolio =>
          simp only [hl]
          by_cases hb : code = DEFAULT_BASE_CURRENCY
          · simp only [if_pos hb]
            cases halw : alookup DEFAULT_BASE_CURRENCY portfolio.wallets with
            | none => simp [halw]
            | some w =>
              simp only [halw]
              cases hd : w.deposit a with
              | error e =>
                obtain ⟨m, rfl⟩ := deposit_error_is_valueError w a e hd
                simp [hd]
              | ok w2 => simp [hd]
          · simp only [if_neg hb]
            cases hrl : alookup (code ++ "_" ++ DEFAULT_BASE_CURRENCY) db.rates.pairs with
            | none => simp [hrl]
            | some rate_info =>
              simp only [hrl]
              cases hbw : alookup DEFAULT_BASE_CURRENCY portfolio.wallets with
              | none => simp [hbw]
              | some bw =>
                simp only [hbw]
                cases hw : bw.withdraw (a * rate_info.rate) with
                | error e =>
                  obtain ⟨m, rfl⟩ := withdraw_error_is_valueError bw _ e hw
                  simp [hw]
                | ok bw2 =>
                  simp only [hw]
                  cases htw : alookup code (portfolio.setWallet DEFAULT_BASE_CURRENCY bw2).wallets with
                  | none => simp [htw]
                  | some tw =>
                    simp only [htw]
                    cases hdp : tw.deposit a with
                    | error e =>
                      obtain ⟨m, rfl⟩ := deposit_error_is_valueError tw a e hdp
                      simp [hdp]
                    | ok tw2 => simp [hdp]

/-- `buy` resolves only the direct pair `{currency}_{base}`: when it is
absent the trade fails with `RateNotFoundError`, even when the reverse
pair is cached. -/
lemma buy_no_reverse_fallback (c : String) (a : ℚ) (u : Nat) (db : Db)
    (cc : String) (rinfo : RateInfo)
    (hcur : get_currency c = .ok cc) (hne : cc ≠ DEFAULT_BASE_CURRENCY)
    (hpos : 0 < a) (habs : plookup u db.portfolios = none)
    (hdir : alookup (cc ++ "_" ++ DEFAULT_BASE_CURRENCY) db.rates.pairs = none)
    (_hrev : alookup (DEFAULT_BASE_CURRENCY ++ "_" ++ cc) db.rates.pairs = some rinfo) :
    (buy c a (some u) db).1
      = .error (.rateNotFound (cc ++ "_" ++ DEFAULT_BASE_CURRENCY)) := by
  have hnl : ¬ (a ≤ 0) := not_le.mpr hpos
  simp only [buy, if_neg hnl, hcur, loadPortfolio_absent u db habs, if_neg hne, hdir]

/-- C10: the rate resolution inside `buy` applies no TTL staleness check
(the outcome is independent of `last_refresh`, and the stale
`ApiRequestError` can never be raised by `buy`) and has no reverse-pair
fallback (a missing direct pair fails `RateNotFound` even when the
reverse pair is cached). -/
theorem buy_rate_lookup_no_ttl_no_reverse :
    (∀ (c : String) (a : ℚ) (su : Option Nat) (db db' : Db),
        db.portfolios = db'.portfolios → db.rates.pairs = db'.rates.pairs →
        (buy c a su db).1 = (buy c a su db').1)
    ∧ (∀ (c : String) (a : ℚ) (su : Option Nat) (db : Db) (r : String),
        (buy c a su db).1 ≠ .error (.apiRequestError r))
    ∧ (∀ (c : String) (a : ℚ) (u : Nat) (db : Db) (cc : String) (rinfo : RateInfo),
        get_currency c = .ok cc → cc ≠ DEFAULT_BASE_CURRENCY → 0 < a →
        plookup u db.portfolios = none →
        alookup (cc ++ "_" ++ DEFAULT_BASE_CURRENCY) db.rates.pairs = none →
        alookup (DEFAULT_BASE_CURRENCY ++ "_" ++ cc) db.rates.pairs = some rinfo →
        (buy c a (some u) db).1
          = .error (.rateNotFound (cc ++ "_" ++ DEFAULT_BASE_CURRENCY))) :=
  ⟨buy_outcome_congr, buy_never_apiRequestError,
   fun c a u db cc rinfo h1 h2 h3 h4 h5 h6 =>
     buy_no_reverse_fallback c a u db cc rinfo h1 h2 h3 h4 h5 h6⟩

/-- Witness for C10: an arbitrarily stale snapshot caching only the
reverse pair `USD_BTC`; `buy("BTC", 1)` fails `RateNotFound("BTC_USD")`,
not a stale-cache error. -/
theorem buy_rate_lookup_no_ttl_no_reverse_witness :
    (buy "BTC" 1 (some 1) ⟨[], ⟨[("USD_BTC", ⟨2, 0, "manual"⟩)], some 0⟩, []⟩).1
      = .error (.rateNotFound ("BTC" ++ "_" ++ DEFAULT_BASE_CURRENCY)) :=
  buy_rate_lookup_no_ttl_no_reverse.2.2 "BTC" 1 1
    ⟨[], ⟨[("USD_BTC", ⟨2, 0, "manual"⟩)], some 0⟩, []⟩ "BTC" ⟨2, 0, "manual"⟩
    (by decide) (by decide) (by norm_num) (by decide) (by decide) (by decide)

/-! Lemmas about the aggregation loop of `run_update`. -/

/-- A run over adapters whose fetches all raise `ApiRequestError` merges
nothing and appends exactly one error string per adapter. -/
lemma runClients_all_failed (clients : List Client)
    (h : ∀ c ∈ clients, ∃ r, c.fetch = .error r)
    (aR : List (String × ℚ)) (aS : List (String × String))
    (res : List UpdateResult) (errs : List String) :
    ∃ newErrs, runClients clients aR aS res errs = (aR, aS, res, errs ++ newErrs)
      ∧ newErrs.length = clients.length := by
  induction clients generalizing errs with
  | nil => exact ⟨[], by simp [runClients], rfl⟩
  | cons c rest ih =>
    obtain ⟨r, hr⟩ := h c (List.mem_cons_self c rest)
    obtain ⟨ne, hne, hlen⟩ :=
      ih (fun c' hc' => h c' (List.mem_cons_of_mem _ hc'))
        (errs ++ ["Failed to fetch from " ++ c.name ++ ": " ++ r])
    refine ⟨("Failed to fetch from " ++ c.name ++ ": " ++ r) :: ne, ?_, by simp [hlen]⟩
    simp only [runClients, hr]
    rw [hne]
    simp

/-- C2: when every adapter's fetch raises `ApiRequestError`, `run_update`
returns no results, one error string per adapter, and leaves the
database — snapshot, `last_refresh` and history — exactly as it was. -/
theorem run_update_all_fail_unchanged (clients : List Client) (now : Nat)
    (db : Db) (h : ∀ c ∈ clients, ∃ r, c.fetch = .error r) :
    ∃ errs, run_update clients none now db = .ok (([], errs), db)
      ∧ errs.length = clients.length := by
  obtain ⟨ne, hne, hlen⟩ := runClients_all_failed clients h [] [] [] []
  refine ⟨ne, ?_, hlen⟩
  simp only [run_update, hne]
  simp

/-- Witness for C2: two failing adapters against a populated state. -/
theorem run_update_all_fail_unchanged_witness :
    ∃ errs,
      run_update [⟨"coingecko", .error "down", 5⟩, ⟨"exchangerate", .error "bad key", 7⟩]
          none 400
          ⟨[(1, [("USD", 1000)])], ⟨[("BTC_USD", ⟨60000, 0, "coingecko"⟩)], some 0⟩, []⟩
        = .ok (([], errs),
            ⟨[(1, [("USD", 1000)])], ⟨[("BTC_USD", ⟨60000, 0, "coingecko"⟩)], some 0⟩, []⟩)
      ∧ errs.length = 2 := by
  obtain ⟨errs, h1, h2⟩ :=
    run_update_all_fail_unchanged
      [⟨"coingecko", .error "down", 5⟩, ⟨"exchangerate", .error "bad key", 7⟩] 400
      ⟨[(1, [("USD", 1000)])], ⟨[("BTC_USD", ⟨60000, 0, "coingecko"⟩)], some 0⟩, []⟩
      (by intro c hc; simp at hc; rcases hc with rfl | rfl <;> exact ⟨_, rfl⟩)
  exact ⟨errs, h1, h2⟩

/-! Association-list lemmas for the merge/write of `run_update`. -/

lemma alookup_append {α : Type} (k : String) (l l' : List (String × α)) :
    alookup k (l ++ l')
      = match alookup k l with
        | some v => some v
        | none => alookup k l' := by
  induction l with
  | nil => simp [alookup]
  | cons p rest ih =>
    by_cases hk : p.1 = k
    · simp [alookup, hk]
    · simpa [alookup, hk] using ih

lemma alookup_cons {α : Type} (a : String) (b : α) (rest : List (String × α))
    (k : String) :
    alookup k ((a, b) :: rest) = if a = k then some b else alookup k rest := rfl

lemma alookup_map_update {α : Type} (l : List (String × α)) (k k' : String)
    (v : α) :
    alookup k' (l.map fun p => if p.1 = k then (k, v) else p)
      = if k' = k then (if (alookup k l).isSome then some v else none)
        else alookup k' l := by
  induction l with
  | nil => simp [alookup]
  | cons p rest ih =>
    obtain ⟨a, b⟩ := p
    simp only [List.map_cons]
    by_cases ha : a = k
    · subst ha
      rw [if_pos rfl]
      simp only [alookup_cons]
      by_cases hk : k' = a
      · subst hk
        simp
      · simp [hk, Ne.symm hk, ih]
    · rw [if_neg ha]
      simp only [alookup_cons]
      by_cases hpk : a = k'
      · subst hpk
        simp [ha]
      · simp [hpk, ha, ih]

lemma alookup_aset {α : Type} (l : List (String × α)) (k k' : String) (v : α) :
    alookup k' (aset l k v) = if k' = k then some v else alookup k' l := by
  unfold aset
  by_cases hp : (alookup k l).isSome
  · rw [if_pos hp, alookup_map_update]
    by_cases hk : k' = k
    · simp [hk, hp]
    · simp [hk]
  · have hnone : alookup k l = none := Option.not_isSome_iff_eq_none.mp hp
    rw [if_neg hp, alookup_append]
    by_cases hk : k' = k
    · subst hk
      simp [hnone, alookup_cons]
    · cases hkl : alookup k' l with
      | none => simp [alookup_cons, alookup, hkl, hk, Ne.symm hk]
      | some w => simp [hkl, hk]

lemma alookup_isSome_iff_mem {α : Type} (k : String) (l : List (String × α)) :
    (alookup k l).isSome = true ↔ k ∈ l.map Prod.fst := by
  induction l with
  | nil => simp [alookup]
  | cons p rest ih =>
    obtain ⟨a, b⟩ := p
    by_cases ha : a = k
    · subst ha
      simp [alookup_cons]
    · simp [alookup_cons, ha, ih, Ne.symm ha]

lemma aset_keys_map {α : Type} (l : List (String × α)) (k : String) (v : α) :
    (l.map fun p => if p.1 = k then (k, v) else p).map Prod.fst
      = l.map Prod.fst := by
  induction l with
  | nil => rfl
  | cons p rest ih =>
    obtain ⟨a, b⟩ := p
    by_cases ha : a = k
    · subst ha
      simp [ih]
    · simp [ha, ih]

lemma ukeys_aset {α : Type} (l : List (String × α)) (k : String) (v : α)
    (hu : (l.map Prod.fst).Nodup) : ((aset l k v).map Prod.fst).Nodup := by
  unfold aset
  by_cases hp : (alookup k l).isSome
  · rw [if_pos hp, aset_keys_map]
    exact hu
  · rw [if_neg hp]
    have hk : k ∉ l.map Prod.fst := by
      rw [← alookup_isSome_iff_mem]
      simp [hp]
    simp [List.nodup_append, hu, hk]

lemma ukeys_aupdate {α : Type} (other d : List (String × α))
    (hu : (d.map Prod.fst).Nodup) : ((aupdate d other).map Prod.fst).Nodup := by
  induction other generalizing d with
  | nil => exact hu
  | cons x xs ih =>
    simp only [aupdate, List.foldl_cons]
    exact ih (aset d x.1 x.2) (ukeys_aset d x.1 x.2 hu)

lemma aupdate_mem_keys {α : Type} (other d : List (String × α)) (p : String)
    (h : p ∈ (aupdate d other).map Prod.fst) :
    p ∈ d.map Prod.fst ∨ p ∈ other.map Prod.fst := by
  induction other generalizing d with
  | nil => exact Or.inl h
  | cons x xs ih =>
    simp only [aupdate, List.foldl_cons] at h
    rcases ih (aset d x.1 x.2) h with hd | hxs
    · rw [← alookup_isSome_iff_mem] at hd
      rw [alookup_aset] at hd
      by_cases hpk : p = x.1
      · exact Or.inr (by simp [hpk])
      · rw [if_neg hpk] at hd
        exact Or.inl ((alookup_isSome_iff_mem p d).mp hd)
    · exact Or.inr (by simp [hxs])

lemma aset_ne_nil {α : Type} (l : List (String × α)) (k : String) (v : α) :
    aset l k v ≠ [] := by
  unfold aset
  by_cases hp : (alookup k l).isSome
  · rw [if_pos hp]
    intro hmap
    rw [List.map_eq_nil_iff] at hmap
    subst hmap
    simp [alookup] at hp
  · rw [if_neg hp]
    simp

lemma aupdate_cons_ne_nil {α : Type} (x : String × α) (xs : List (String × α))
    (d : List (String × α)) : aupdate d (x :: xs) ≠ [] := by
  induction xs generalizing d x with
  | nil =>
    simp only [aupdate, List.foldl_cons, List.foldl_nil]
    exact aset_ne_nil d x.1 x.2
  | cons y ys ih =>
    simp only [aupdate, List.foldl_cons]
    exact ih y (aset d x.1 x.2)

lemma isEmpty_false_of_ne_nil {α : Type} (l : List α) (h : l ≠ []) :
    l.isEmpty = false := by
  cases l with
  | nil => exact absurd rfl h
  | cons x xs => rfl

/-- Lookup after the snapshot-writing fold of `update_rates_snapshot`:
pairs in the merged mapping are overwritten with timestamp `now` and
their recorded provenance, all other pairs keep their previous entry. -/
lemma alookup_update_pairs (entries : List (String × ℚ))
    (sources : List (String × String)) (now : Nat)
    (base : List (String × RateInfo)) (p : String)
    (hu : (entries.map Prod.fst).Nodup) :
    alookup p (entries.foldl
        (fun acc pr => aset acc pr.1 ⟨pr.2, now, (alookup pr.1 sources).getD "Unknown"⟩)
        base)
      = match alookup p entries with
        | some r => some ⟨r, now, (alookup p sources).getD "Unknown"⟩
        | none => alookup p base := by
  induction entries generalizing base with
  | nil => simp [alookup]
  | cons e rest ih =>
    obtain ⟨k, v⟩ := e
    simp only [List.map_cons, List.nodup_cons] at hu
    simp only [List.foldl_cons]
    rw [ih _ hu.2]
    by_cases hpk : p = k
    · subst hpk
      have hrest : alookup p rest = none := by
        rw [← Option.not_isSome_iff_eq_none, alookup_isSome_iff_mem]
        exact hu.1
      simp [hrest, alookup_aset, alookup_cons]
    · have hkp : ¬ (k = p) := fun h => hpk h.symm
      cases hr : alookup p rest with
      | some r => simp [hr, alookup_cons, hkp]
      | none => simp [hr, alookup_cons, alookup_aset, hpk, hkp]

/-- Lookup after the provenance-recording fold of `run_update`
(`all_sources[pair] = name` for every fetched pair). -/
lemma alookup_foldl_aset_const (entries : List (String × ℚ)) (n : String)
    (s0 : List (String × String)) (p : String) :
    alookup p (entries.foldl (fun acc pr => aset acc pr.1 n) s0)
      = if p ∈ entries.map Prod.fst then some n else alookup p s0 := by
  induction entries generalizing s0 with
  | nil => simp
  | cons e rest ih =>
    obtain ⟨k, v⟩ := e
    simp only [List.foldl_cons]
    rw [ih]
    by_cases hpk : p = k
    · subst hpk
      by_cases hm : p ∈ rest.map Prod.fst
      · simp [hm]
      · simp [hm, alookup_aset]
    · by_cases hm : p ∈ rest.map Prod.fst
      · simp [hm, hpk]
      · simp [hm, hpk, alookup_aset]

/-- `writeHistory` succeeds when every merged pair key splits in two and
has recorded provenance; it only appends to the history, leaving the
snapshot and the portfolios untouched. -/
lemma writeHistory_ok (entries : List (String × ℚ))
    (sources : List (String × String)) (now : Nat) (db : Db)
    (hs : ∀ pr ∈ entries, ∃ f t, splitPair pr.1 = [f, t])
    (hsrc : ∀ pr ∈ entries, (alookup pr.1 sources).isSome) :
    ∃ db', writeHistory entries sources now db = .ok db'
      ∧ db'.rates = db.rates ∧ db'.portfolios = db.portfolios := by
  induction entries generalizing db with
  | nil => exact ⟨db, rfl, rfl, rfl⟩
  | cons e rest ih =>
    obtain ⟨pair, rate⟩ := e
    obtain ⟨f, t, hsp⟩ := hs (pair, rate) (List.mem_cons_self _ _)
    obtain ⟨src, hsome⟩ := Option.isSome_iff_exists.mp
      (hsrc (pair, rate) (List.mem_cons_self _ _))
    obtain ⟨db', h1, h2, h3⟩ :=
      ih (save_rate_to_history f t rate src now db)
        (fun pr hpr => hs pr (List.mem_cons_of_mem _ hpr))
        (fun pr hpr => hsrc pr (List.mem_cons_of_mem _ hpr))
    refine ⟨db', ?_, h2, h3⟩
    simp only [writeHistory, hsp, hsome]
    exact h1

/-- C1: with no source filter, one failing adapter and one succeeding
adapter (returning at least one pair), `run_update` records exactly one
error string, returns exactly the succeeding adapter's `UpdateResult`,
writes every merged pair into the snapshot with timestamp `now` and the
succeeding adapter's name as provenance, keeps all other cached pairs,
and sets `last_refresh` to `now`. -/
theorem run_update_one_failed_adapter
    (nf ns reason : String) (rates : List (String × ℚ)) (df ds : ℚ)
    (now : Nat) (db : Db)
    (hne : rates ≠ [])
    (hsplit : ∀ p ∈ rates.map Prod.fst, ∃ f t, splitPair p = [f, t]) :
    ∃ db',
      run_update [⟨nf, .error reason, df⟩, ⟨ns, .ok rates, ds⟩] none now db
        = .ok (([⟨ns, rates.length, ds⟩],
                ["Failed to fetch from " ++ nf ++ ": " ++ reason]), db')
      ∧ db'.rates.lastRefresh = some now
      ∧ (∀ p r, alookup p (aupdate [] rates) = some r →
          alookup p db'.rates.pairs = some ⟨r, now, ns⟩)
      ∧ (∀ p, alookup p (aupdate [] rates) = none →
          alookup p db'.rates.pairs = alookup p db.rates.pairs) := by
  have hkeys : ∀ p, p ∈ (aupdate [] rates).map Prod.fst → p ∈ rates.map Prod.fst := by
    intro p hp
    rcases aupdate_mem_keys rates [] p hp with h | h
    · simp at h
    · exact h
  have hsrcAll : ∀ pr ∈ aupdate [] rates,
      (alookup pr.1 (rates.foldl (fun acc pr => aset acc pr.1 ns) [])).isSome := by
    intro pr hpr
    have hm : pr.1 ∈ rates.map Prod.fst :=
      hkeys pr.1 (List.mem_map_of_mem Prod.fst hpr)
    rw [alookup_foldl_aset_const]
    simp [hm]
  have hsAll : ∀ pr ∈ aupdate [] rates, ∃ f t, splitPair pr.1 = [f, t] :=
    fun pr hpr => hsplit pr.1 (hkeys pr.1 (List.mem_map_of_mem Prod.fst hpr))
  obtain ⟨dbh, hwh, hrates, hports⟩ :=
    writeHistory_ok (aupdate [] rates)
      (rates.foldl (fun acc pr => aset acc pr.1 ns) []) now db hsAll hsrcAll
  have hu : ((aupdate [] rates).map Prod.fst).Nodup :=
    ukeys_aupdate rates [] List.nodup_nil
  have hie : (aupdate [] rates).isEmpty = false := by
    cases hx : rates with
    | nil => exact absurd hx hne
    | cons x xs => exact isEmpty_false_of_ne_nil _ (aupdate_cons_ne_nil x xs [])
  refine ⟨update_rates_snapshot (aupdate [] rates)
      (rates.foldl (fun acc pr => aset acc pr.1 ns) []) now dbh, ?_, rfl, ?_, ?_⟩
  · simp only [run_update, runClients, List.nil_append, hie, Bool.false_eq_true,
      if_false, hwh]
  · intro p r hpr
    have hm : p ∈ rates.map Prod.fst := by
      apply hkeys
      rw [← alookup_isSome_iff_mem, hpr]
      rfl
    simp only [update_rates_snapshot]
    rw [alookup_update_pairs _ _ _ _ _ hu, hpr, alookup_foldl_aset_const]
    simp [hm]
  · intro p hpr
    simp only [update_rates_snapshot]
    rw [alookup_update_pairs _ _ _ _ _ hu, hpr, hrates]

/-- Witness for C1: `coingecko` fails, `exchangerate` returns one pair
`EUR_USD`; against a state caching `BTC_USD` refreshed at 0, the update
at time 400 keeps `BTC_USD`, writes `EUR_USD` and advances
`last_refresh` from 0 to 400. -/
theorem run_update_one_failed_adapter_witness :
    ∃ db',
      run_update [⟨"coingecko", .error "down", 5⟩, ⟨"exchangerate", .ok [("EUR_USD", 2)], 7⟩]
          none 400
          ⟨[], ⟨[("BTC_USD", ⟨60000, 0, "coingecko"⟩)], some 0⟩, []⟩
        = .ok (([⟨"exchangerate", 1, 7⟩],
                ["Failed to fetch from coingecko: down"]), db')
      ∧ db'.rates.lastRefresh = some 400
      ∧ alookup "EUR_USD" db'.rates.pairs = some ⟨2, 400, "exchangerate"⟩
      ∧ alookup "BTC_USD" db'.rates.pairs = some ⟨60000, 0, "coingecko"⟩ := by
  obtain ⟨db', h1, h2, h3, h4⟩ :=
    run_update_one_failed_adapter "coingecko" "exchangerate" "down"
      [("EUR_USD", 2)] 5 7 400
      ⟨[], ⟨[("BTC_USD", ⟨60000, 0, "coingecko"⟩)], some 0⟩, []⟩
      (by simp)
      (by
        intro p hp
        simp at hp
        subst hp
        exact ⟨"EUR", "USD", by decide⟩)
  refine ⟨db', h1, h2, ?_, ?_⟩
  · exact h3 "EUR_USD" 2 (by simp [aupdate, aset, alookup])
  · rw [h4 "BTC_USD" (by simp [aupdate, aset, alookup])]
    simp [alookup]

end VTHub
